import Mathlib

/-!
Verification of the chat-bubble plugin.

This file is a shallow embedding of the plugin's conversation pipeline:

* ingestion and classification of snapshot rows (`App.tsx`:
  `assistantIdentifiers`, `transformedMessages`),
* day grouping (`ChatInterface.tsx`: `shouldShowDayStamp`),
* playback eligibility and the typewriter chunking step
  (`ChatInterface.tsx`: `isMessageNew`, `shouldAnimate`, `getChunkSize`),
* the round-trip coordinator (`App.tsx`: `handleSendMessage`,
  `ChatInterface.tsx`: `handleSubmit`).

Modelling conventions: JavaScript string cells of the column-oriented
snapshot are `Option String` (with `none` for `undefined`/`null`, and the
empty string also counting as falsy, matching JavaScript truthiness on
strings); instants (`Date`) are `Int` milliseconds; `Math.random()` draws
are explicit rational parameters in `[0, 1)`; the local calendar date of an
instant is floor division of the zone-shifted instant by the number of
milliseconds in a day.
-/

namespace ChatPlugin

/-- The `sender` field: the source uses the string union
`'user' | 'assistant'` (src/types/chat.types.ts). -/
inductive Sender where
  | user
  | assistant
deriving DecidableEq

/-- `ChatMessage` from src/types/chat.types.ts.  `timestamp` is the instant
in milliseconds. -/
structure ChatMessage where
  id : String
  content : String
  sender : Sender
  timestamp : Int
  email : Option String
deriving DecidableEq

/-- JavaScript falsiness of an optional string cell: `undefined`, `null`
and the empty string are falsy (`if (!message) return null`). -/
def jsFalsy : Option String → Bool
  | none => true
  | some s => s.data.isEmpty

/-- JavaScript `x ? String(x) : undefined` on an optional string cell. -/
def truthyOpt : Option String → Option String
  | none => none
  | some s => if s.data.isEmpty then none else some s

/-- JavaScript `s.toLowerCase()` (on the ASCII range relevant here):
lower-casing character by character. -/
def toLowerStr (s : String) : String := ⟨s.data.map Char.toLower⟩

/-- JavaScript `s.split(sep)` for a one-character separator, on character
lists: every occurrence of the separator ends a (possibly empty)
segment. -/
def splitOnCharAux (sep : Char) : List Char → List Char → List (List Char)
  | [], acc => [acc.reverse]
  | c :: cs, acc =>
    if c = sep then acc.reverse :: splitOnCharAux sep cs []
    else splitOnCharAux sep cs (c :: acc)

/-- JavaScript `s.split(sep)` for a one-character separator. -/
def splitOnStr (sep : Char) (s : String) : List String :=
  (splitOnCharAux sep s.data []).map (fun l => ⟨l⟩)

/-- JavaScript `hay.includes(needle)` (substring containment) on the
character lists underlying the strings. -/
def containsSubstr (hay needle : List Char) : Bool :=
  needle.isPrefixOf hay ||
    match hay with
    | [] => false
    | _ :: t => containsSubstr t needle

/-- The character of a decimal digit. -/
def digitChar (n : Nat) : Char := Char.ofNat (48 + n)

/-- Accumulating decimal rendering of a positive natural number, most
significant digit first (the digits of `n` are prepended to `acc`). -/
def natDecAux : Nat → List Char → List Char
  | 0, acc => acc
  | n + 1, acc => natDecAux ((n + 1) / 10) (digitChar ((n + 1) % 10) :: acc)
termination_by n _ => n
decreasing_by exact Nat.div_lt_self (Nat.succ_pos n) (by decide)

/-- Decimal rendering of a natural number, as produced by the JavaScript
template literal for a number. -/
def natDec (n : Nat) : List Char := if n = 0 then ['0'] else natDecAux n []

/-- Decimal rendering as a `String`. -/
def natDecStr (n : Nat) : String := ⟨natDec n⟩

/-- The synthesized message id `msg-` followed by the row index
(`msg-\x7bindex\x7d` in App.tsx). -/
def msgId (index : Nat) : String := "msg-" ++ natDecStr index

/-- Value of a decimal digit string (used to invert `natDec`). -/
def decVal (l : List Char) : Nat :=
  l.foldl (fun a c => 10 * a + (c.toNat - 48)) 0

/-- The whitespace predicate used by the model of JavaScript
`String.prototype.trim`. -/
def wsChar (c : Char) : Bool := c.isWhitespace

/-- Trimming leading and trailing whitespace from a character list. -/
def trimData (l : List Char) : List Char :=
  ((l.dropWhile wsChar).reverse.dropWhile wsChar).reverse

/-- Model of JavaScript `s.trim()`. -/
def jsTrim (s : String) : String := ⟨trimData s.data⟩

/-- The assistant-identifier configuration parse (App.tsx):
`(config.assistantIdentifiers || "assistant,ai,bot,agent").split(',')
  .map(id => id.trim().toLowerCase()).filter(id => id.length > 0)`. -/
def assistantIdentifiers (cfgValue : String) : List String :=
  ((splitOnStr ',' (if cfgValue.data.isEmpty then "assistant,ai,bot,agent" else cfgValue)).map
      (fun id => toLowerStr (jsTrim id))).filter (fun id => decide (0 < id.length))

/-- One row of the column-oriented snapshot: the values of the bound
columns at a fixed index.  Iteration is driven by the message column, so a
row exists for every entry of `messageArray`; a column that is unbound or
shorter than the message column reads as `none`. -/
structure Row where
  message : Option String
  author : Option String
  timestamp : Option Int
  idField : Option String
  email : Option String
deriving DecidableEq

/-- The body of the `messageArray.map` callback in `transformedMessages`
(App.tsx), for a row whose message cell is truthy: classification,
id/timestamp/email defaulting, and record construction. -/
def buildMessage (identifiers : List String) (currentUserEmail : String) (now : Int)
    (index : Nat) (r : Row) : ChatMessage :=
  let author := toLowerStr (r.author.getD "")
  let email := truthyOpt r.email
  let isAssistant := identifiers.any (fun identifier => containsSubstr author.data identifier.data)
  let _isCurrentUser := !currentUserEmail.data.isEmpty &&
    (author == toLowerStr currentUserEmail ||
      containsSubstr author.data (toLowerStr ((splitOnStr '@' currentUserEmail).headD "")).data ||
      (match email with
        | some e => toLowerStr e == toLowerStr currentUserEmail
        | none => false))
  let sender := if isAssistant then Sender.assistant else Sender.user
  { id := match truthyOpt r.idField with
      | some s => s
      | none => msgId index
    content := r.message.getD ""
    sender := sender
    timestamp := r.timestamp.getD now
    email := email }

/-- The full `messageArray.map` callback: a falsy message cell yields
`null` (here `none`), otherwise the built `ChatMessage`. -/
def transformRow (identifiers : List String) (currentUserEmail : String) (now : Int)
    (index : Nat) (r : Row) : Option ChatMessage :=
  if jsFalsy r.message then none
  else some (buildMessage identifiers currentUserEmail now index r)

/-- `messageArray.map((message, index) => ...).filter(msg => msg !== null)`
unrolled as a single index-carrying recursion: the rows are visited in
order, each at its source index, and the `null` results are dropped. -/
def transformedMessagesAux (identifiers : List String) (currentUserEmail : String)
    (now : Int) : Nat → List Row → List ChatMessage
  | _, [] => []
  | index, r :: rest =>
    match transformRow identifiers currentUserEmail now index r with
    | none => transformedMessagesAux identifiers currentUserEmail now (index + 1) rest
    | some m => m :: transformedMessagesAux identifiers currentUserEmail now (index + 1) rest

/-- `transformedMessages` (App.tsx): the ingested Conversation. -/
def transformedMessages (identifiers : List String) (currentUserEmail : String)
    (now : Int) (rows : List Row) : List ChatMessage :=
  transformedMessagesAux identifiers currentUserEmail now 0 rows

/-- The indexed rows that survive the empty-message skip. -/
def retainedRows (rows : List Row) : List (Nat × Row) :=
  rows.enum.filter (fun p => !jsFalsy p.2.message)

/-- The id that ingestion gives the message built from the indexed row. -/
def rowIdOf (p : Nat × Row) : String :=
  match truthyOpt p.2.idField with
  | some s => s
  | none => msgId p.1

/-- Two indexed rows do not carry the same provided (truthy) id: either
one of them has no truthy id field, or the truthy id values differ. -/
def providedIdsOk (p q : Nat × Row) : Prop :=
  truthyOpt p.2.idField = none ∨ truthyOpt q.2.idField = none ∨
    truthyOpt p.2.idField ≠ truthyOpt q.2.idField

/-- A provided id never collides with the id synthesized for a row that
lacks one: if `q` has no truthy id, `p`'s truthy id (if any) is not
`q`'s synthesized `msg-` id. -/
def crossIdOk (p q : Nat × Row) : Prop :=
  truthyOpt q.2.idField = none → truthyOpt p.2.idField ≠ some (msgId q.1)

instance : DecidableRel providedIdsOk := fun p q => by
  unfold providedIdsOk
  infer_instance

instance : DecidableRel crossIdOk := fun p q => by
  unfold crossIdOk
  infer_instance

/-- `MESSAGE_AGE_THRESHOLD` (ChatInterface.tsx): 30 seconds in
milliseconds. -/
def MESSAGE_AGE_THRESHOLD : Int := 30000

/-- `isMessageNew` (ChatInterface.tsx): the message age, current instant
minus message instant, is strictly below the threshold. -/
def isMessageNew (now timestamp : Int) : Bool :=
  now - timestamp < MESSAGE_AGE_THRESHOLD

/-- `shouldShowLoading` (ChatInterface.tsx): the list is non-empty and its
last message has sender `user` (`messages[messages.length - 1]`). -/
def shouldShowLoading (messages : List ChatMessage) : Bool :=
  match messages.getLast? with
  | some m => m.sender == Sender.user
  | none => false

/-- The `shouldAnimate` prop computed for each rendered message
(ChatInterface.tsx, the `messages.map` in the render): assistant sender,
index equal to `messages.length - 1`, and `isMessageNew` on the
timestamp. -/
def animateFlags (now : Int) (messages : List ChatMessage) : List Bool :=
  messages.enum.map (fun p =>
    (p.2.sender == Sender.assistant) &&
      (p.1 == messages.length - 1) &&
      isMessageNew now p.2.timestamp)

/-- The render state of `AnimatedMessageBubble`. -/
structure BubbleState where
  displayedText : String
  currentIndex : Nat
  isTyping : Bool
deriving DecidableEq

/-- The `useState` initialisers of `AnimatedMessageBubble`: with
`shouldAnimate` false the bubble starts fully revealed and not typing. -/
def initBubbleState (shouldAnimate : Bool) (content : String) : BubbleState :=
  { displayedText := if shouldAnimate then "" else content
    currentIndex := if shouldAnimate then 0 else content.length
    isTyping := shouldAnimate }

/-- Milliseconds in a day. -/
def msPerDay : Int := 86400000

/-- The local calendar date of an instant, for a time zone displaced
`tz` milliseconds from UTC: floor division of the shifted instant by the
day length.  This models the local-date comparison done by the date-fns
`isSameDay` call. -/
def dayOf (tz t : Int) : Int := (t + tz) / msPerDay

/-- date-fns `isSameDay` on two instants, in the modelled zone. -/
def isSameDay (tz a b : Int) : Bool := dayOf tz a == dayOf tz b

/-- `shouldShowDayStamp` (ChatInterface.tsx): the first message always
shows a day stamp, a later one iff its calendar date differs from the
previous message's. -/
def shouldShowDayStamp (tz : Int) (currentMessage : ChatMessage)
    (previousMessage : Option ChatMessage) : Bool :=
  match previousMessage with
  | none => true
  | some p => !isSameDay tz currentMessage.timestamp p.timestamp

/-- The per-message `showDayStamp` values computed in the render loop
(`previousMessage = index > 0 ? messages[index - 1] : null`). -/
def dayStampFlags (tz : Int) (messages : List ChatMessage) : List Bool :=
  messages.enum.map (fun p =>
    shouldShowDayStamp tz p.2 (if p.1 = 0 then none else messages[p.1 - 1]?))

/-- The `Math.random()` draws consumed by one reveal step of
`AnimatedMessageBubble`, in the order the chunk-size code can sample them.
Each is a rational in `[0, 1)`. -/
structure RandDraws where
  breakEarlyRoll : ℚ
  earlyFrac : ℚ
  baseRoll : ℚ
  variationRoll : ℚ
  smallRoll : ℚ
  largeRoll : ℚ
deriving DecidableEq

/-- The `Math.random()` contract: every draw lies in `[0, 1)`. -/
def ValidDraws (r : RandDraws) : Prop :=
  (0 ≤ r.breakEarlyRoll ∧ r.breakEarlyRoll < 1) ∧
  (0 ≤ r.earlyFrac ∧ r.earlyFrac < 1) ∧
  (0 ≤ r.baseRoll ∧ r.baseRoll < 1) ∧
  (0 ≤ r.variationRoll ∧ r.variationRoll < 1) ∧
  (0 ≤ r.smallRoll ∧ r.smallRoll < 1) ∧
  (0 ≤ r.largeRoll ∧ r.largeRoll < 1)

instance (r : RandDraws) : Decidable (ValidDraws r) := by
  unfold ValidDraws; infer_instance

/-- JavaScript `indexOf` on a character list: first index of `c`, `-1`
when absent. -/
def indexOfAux (c : Char) : List Char → Int → Int
  | [], _ => -1
  | x :: xs, i => if x = c then i else indexOfAux c xs (i + 1)

/-- `remainingText.indexOf(c)`. -/
def indexOfChar (s : List Char) (c : Char) : Int := indexOfAux c s 0

/-- JavaScript `String.prototype.search` with a character-class pattern:
first index whose character satisfies `p`, `-1` when none does. -/
def searchAux (p : Char → Bool) : List Char → Int → Int
  | [], _ => -1
  | x :: xs, i => if p x then i else searchAux p xs (i + 1)

/-- `remainingText.search(pattern)`. -/
def searchIndex (p : Char → Bool) (s : List Char) : Int := searchAux p s 0

/-- The character class `[.,!?;:\n]` of the chunking regex. -/
def isPunctChar (c : Char) : Bool :=
  c = '.' || c = ',' || c = '!' || c = '?' || c = ';' || c = ':' || c = '\n'

/-- Insertion into a sorted list (used to model the ascending
`.sort((a, b) => a - b)` of the break-point list). -/
def insertSorted (x : Int) : List Int → List Int
  | [] => [x]
  | y :: ys => if x ≤ y then x :: y :: ys else y :: insertSorted x ys

/-- Ascending sort of the break-point list. -/
def sortInts : List Int → List Int
  | [] => []
  | x :: xs => insertSorted x (sortInts xs)

/-- The artificial-chunk arm of `getChunkSize` (no nearby break point):
`2 + ⌊rand*8⌋` base, with a 10% chance of `1 + ⌊rand*2⌋` and a further 20%
chance of `10 + ⌊rand*11⌋`. -/
def artificialChunk (rnd : RandDraws) : Int :=
  let baseChunk : Int := 2 + ⌊rnd.baseRoll * 8⌋
  let variation := rnd.variationRoll
  if variation < 1 / 10 then 1 + ⌊rnd.smallRoll * 2⌋
  else if variation < 3 / 10 then 10 + ⌊rnd.largeRoll * 11⌋
  else baseChunk

/-- `getChunkSize` (ChatInterface.tsx): nearest positive break point among
space, punctuation and newline; include the break when it is within 3
characters; up to 15 characters either break at it or, 30% of the time for
breaks beyond 5, at `⌊nearestBreak * (0.3 + rand * 0.5)⌋`; otherwise an
artificial chunk. -/
def getChunkSize (rnd : RandDraws) (remainingText : List Char) : Int :=
  let nextSpace := indexOfChar remainingText ' '
  let nextPunctuation := searchIndex isPunctChar remainingText
  let nextNewline := indexOfChar remainingText '\n'
  let breakPoints := sortInts ([nextSpace, nextPunctuation, nextNewline].filter
      (fun point => decide (0 < point)))
  match breakPoints with
  | nearestBreak :: _ =>
    if nearestBreak ≤ 3 then nearestBreak + 1
    else if nearestBreak ≤ 15 then
      if rnd.breakEarlyRoll > 7 / 10 && decide (5 < nearestBreak) then
        ⌊(nearestBreak : ℚ) * (3 / 10 + rnd.earlyFrac * (1 / 2))⌋
      else nearestBreak
    else artificialChunk rnd
  | [] => artificialChunk rnd

/-- The committed chunk length of one reveal step:
`Math.min(getChunkSize(), remainingText.length)` where `remainingText` is
`content.slice(currentIndex)`. -/
def commitLength (rnd : RandDraws) (content : List Char) (currentIndex : Nat) : Nat :=
  (min (getChunkSize rnd (content.drop currentIndex))
      ((content.drop currentIndex).length : Int)).toNat

/-- One firing of the reveal timeout: when the content is not fully
revealed, `currentIndex` advances by the committed chunk length (the
effect body returns without scheduling once `currentIndex` reaches
`content.length`). -/
def revealStep (rnd : RandDraws) (content : List Char) (currentIndex : Nat) : Nat :=
  if content.length ≤ currentIndex then currentIndex
  else currentIndex + commitLength rnd content currentIndex

/-- A run of the self-rescheduling reveal loop, consuming one bundle of
draws per step. -/
def revealRun (content : List Char) : List RandDraws → Nat → Nat
  | [], i => i
  | r :: rest, i => revealRun content rest (revealStep r content i)

/-- Which of the fallible external calls of a send fails, if any. -/
inductive FailMode where
  | noFail
  | writeFails
  | triggerFails
deriving DecidableEq

/-- Which external handles are configured: `config.promptControl`, the
`setPromptValue` setter, and the `triggerSendMessage` action trigger. -/
structure SendConfig where
  hasPromptControl : Bool
  hasSetPromptValue : Bool
  hasTrigger : Bool
deriving DecidableEq

/-- The observable outcome of a send: the values written to the shared
variable in order (including the delayed clear), whether the action
trigger was invoked, the resulting message list, and the final `isLoading`
flag. -/
structure SendOutcome where
  writes : List String
  triggerInvoked : Bool
  messages : List ChatMessage
  isLoading : Bool
deriving DecidableEq

/-- The fixed error text of the synthesized message. -/
def errorText : String :=
  "Sorry, there was an error sending your message. Please make sure the Prompt Control is configured."

/-- The synthesized error message: id `error-` followed by `Date.now()`,
fixed content, assistant sender, current-instant timestamp. -/
def errorMessage (now : Int) : ChatMessage :=
  { id := "error-" ++ toString now
    content := errorText
    sender := Sender.assistant
    timestamp := now
    email := none }

/-- `handleSendMessage` (App.tsx).  The early return fires when the
trimmed message is empty or the trigger is unbound, leaving every piece of
state untouched.  Otherwise: the write happens only when both
`config.promptControl` and `setPromptValue` are present; a throwing write
or a rejecting trigger lands in the catch block, which appends the
synthesized error message and skips the clear; on success the delayed
clear write of the empty string is scheduled; `finally` resets
`isLoading`. -/
def handleSendMessage (cfg : SendConfig) (fail : FailMode) (isLoadingBefore : Bool)
    (now : Int) (message : String) (messages : List ChatMessage) : SendOutcome :=
  if (jsTrim message).data.isEmpty || !cfg.hasTrigger then
    { writes := [], triggerInvoked := false, messages := messages,
      isLoading := isLoadingBefore }
  else
    let canWrite := cfg.hasPromptControl && cfg.hasSetPromptValue
    match fail with
    | FailMode.writeFails =>
      if canWrite then
        { writes := [], triggerInvoked := false,
          messages := messages ++ [errorMessage now], isLoading := false }
      else
        { writes := [], triggerInvoked := true, messages := messages, isLoading := false }
    | FailMode.triggerFails =>
      { writes := if canWrite then [message] else [], triggerInvoked := true,
        messages := messages ++ [errorMessage now], isLoading := false }
    | FailMode.noFail =>
      { writes := (if canWrite then [message] else []) ++ (if canWrite then [""] else []),
        triggerInvoked := true, messages := messages, isLoading := false }

/-- `handleSubmit` (ChatInterface.tsx): returns without effect when the
trimmed input is empty, a round trip is in flight (`isLoading`), or the
waiting indicator is on; otherwise forwards the trimmed input to
`onSendMessage` = `handleSendMessage`. -/
def handleSubmit (cfg : SendConfig) (fail : FailMode) (now : Int)
    (inputValue : String) (isLoading : Bool) (messages : List ChatMessage) : SendOutcome :=
  if (jsTrim inputValue).data.isEmpty || isLoading || shouldShowLoading messages then
    { writes := [], triggerInvoked := false, messages := messages, isLoading := isLoading }
  else
    handleSendMessage cfg fail isLoading now (jsTrim inputValue) messages

/-- The value the external shared variable holds after the send, given its
prior value: the last write wins, no write leaves it unchanged. -/
def finalVar (priorValue : String) (o : SendOutcome) : String :=
  o.writes.getLast?.getD priorValue

/-! Concrete inputs used by witnesses and counterexamples. -/

/-- A draw bundle with every `Math.random()` result equal to 0. -/
def zeroDraws : RandDraws := ⟨0, 0, 0, 0, 0, 0⟩

/-- A snapshot row whose author mentions an assistant identifier. -/
def rowA : Row := ⟨some "hi", some "AI Bot", none, none, none⟩

/-- The message ingestion builds from `rowA` at index 0, instant 0. -/
def msgA : ChatMessage := ⟨"msg-0", "hi", Sender.assistant, 0, none⟩

/-- An assistant message dated 100 seconds into the future of instant 0. -/
def futureMsg : ChatMessage := ⟨"future", "x", Sender.assistant, 100000, none⟩

/-- All three external handles configured. -/
def cfgFull : SendConfig := ⟨true, true, true⟩

/-- Trigger configured but `config.promptControl` unbound, so the write
handle is not configured. -/
def cfgNoControl : SendConfig := ⟨false, true, true⟩

/-- Two rows carrying the same provided id field. -/
def dupIdRows : List Row :=
  [⟨some "a", some "u", none, some "x", none⟩,
   ⟨some "b", some "v", none, some "x", none⟩]

/-- Two rows with no id field (ids are synthesized from the index). -/
def noIdRows : List Row :=
  [⟨some "a", some "u", none, none, none⟩,
   ⟨some "b", some "v", none, none, none⟩]

/-- Two rows agreeing on author and message but with different emails. -/
def rowEmailA : Row := ⟨some "hi", some "alice", none, none, some "alice@x.com"⟩

/-- See `rowEmailA`. -/
def rowEmailB : Row := ⟨some "hi", some "alice", none, none, some "bob@y.com"⟩

/-! Helper lemmas about the ingestion pipeline. -/

/-- The `sender` of a built message depends only on the identifier list
and the lower-cased author cell. -/
theorem buildMessage_sender (ids : List String) (cue : String) (now : Int)
    (index : Nat) (r : Row) :
    (buildMessage ids cue now index r).sender =
      (if ids.any (fun identifier =>
          containsSubstr (toLowerStr (r.author.getD "")).data identifier.data) = true
        then Sender.assistant else Sender.user) := rfl

/-- The `id` of a built message is the truthy provided id, else the
synthesized `msg-` id. -/
theorem buildMessage_id (ids : List String) (cue : String) (now : Int)
    (index : Nat) (r : Row) :
    (buildMessage ids cue now index r).id = rowIdOf (index, r) := rfl

/-- `transformedMessagesAux` is the filtered, index-annotated map it
unrolls: rows are kept exactly when their message cell is truthy, in
source order, each built at its own index. -/
theorem transformedMessagesAux_eq (ids : List String) (cue : String) (now : Int)
    (rows : List Row) : ∀ k : Nat,
    transformedMessagesAux ids cue now k rows =
      ((List.enumFrom k rows).filter (fun p => !jsFalsy p.2.message)).map
        (fun p => buildMessage ids cue now p.1 p.2) := by
  induction rows with
  | nil => intro k; rfl
  | cons r rest ih =>
    intro k
    by_cases h : jsFalsy r.message = true
    · simp [transformedMessagesAux, transformRow, h, List.enumFrom, List.filter_cons, ih]
    · simp only [Bool.not_eq_true] at h
      simp [transformedMessagesAux, transformRow, h, List.enumFrom, List.filter_cons, ih]

/-- Counting retained indexed rows is counting retained rows. -/
theorem length_filter_enumFrom (q : Row → Bool) (rows : List Row) : ∀ k : Nat,
    ((List.enumFrom k rows).filter (fun p => q p.2)).length =
      (rows.filter q).length := by
  induction rows with
  | nil => intro k; rfl
  | cons r rest ih =>
    intro k
    by_cases h : q r = true <;>
      simp [List.enumFrom, List.filter_cons, h, ih]

/-! Claim theorems. -/

/-- C1: for every ingested row the computed sender is `assistant` exactly
when the lower-cased author cell contains some configured assistant
identifier as a substring, and `user` exactly otherwise; classification is
a total function of the author string (it is a function of the row, and
this characterisation mentions only the author cell). -/
theorem classification_author_substring (cfgValue currentUserEmail : String)
    (now : Int) (index : Nat) (r : Row) (m : ChatMessage)
    (h : transformRow (assistantIdentifiers cfgValue) currentUserEmail now index r = some m) :
    (m.sender = Sender.assistant ↔
      ∃ identifier ∈ assistantIdentifiers cfgValue,
        containsSubstr (toLowerStr (r.author.getD "")).data identifier.data = true) ∧
    (m.sender = Sender.user ↔
      ¬ ∃ identifier ∈ assistantIdentifiers cfgValue,
        containsSubstr (toLowerStr (r.author.getD "")).data identifier.data = true) := by
  rw [transformRow] at h
  by_cases hf : jsFalsy r.message = true
  · rw [if_pos hf] at h; cases h
  · rw [if_neg hf] at h
    obtain rfl := Option.some.inj h
    rw [buildMessage_sender]
    by_cases hany : (assistantIdentifiers cfgValue).any (fun identifier =>
        containsSubstr (toLowerStr (r.author.getD "")).data identifier.data) = true
    · rw [if_pos hany]
      rw [List.any_eq_true] at hany
      exact ⟨⟨fun _ => hany, fun _ => rfl⟩,
        ⟨fun hc => Sender.noConfusion hc, fun hc => absurd hany hc⟩⟩
    · rw [if_neg hany]
      rw [List.any_eq_true] at hany
      exact ⟨⟨fun hc => Sender.noConfusion hc, fun hc => absurd hc hany⟩,
        ⟨fun _ => hany, fun _ => rfl⟩⟩

/-- Witness for C1 at a concrete row: `rowA` (author `"AI Bot"`) is
ingested at index 0 as `msgA`, classified `assistant`. -/
theorem classification_author_substring_witness :
    transformRow (assistantIdentifiers "assistant,ai") "" 0 0 rowA = some msgA ∧
    ((msgA.sender = Sender.assistant ↔
      ∃ identifier ∈ assistantIdentifiers "assistant,ai",
        containsSubstr (toLowerStr (rowA.author.getD "")).data identifier.data = true) ∧
    (msgA.sender = Sender.user ↔
      ¬ ∃ identifier ∈ assistantIdentifiers "assistant,ai",
        containsSubstr (toLowerStr (rowA.author.getD "")).data identifier.data = true)) :=
  ⟨by decide, classification_author_substring "assistant,ai" "" 0 0 rowA msgA (by decide)⟩

/-- C2: ingestion keeps exactly the rows with a truthy message cell, in
source order and at their source indices (first conjunct); hence the
Conversation length equals — in particular is at most — the number of rows
with a non-empty message field. -/
theorem ingestion_skips_empty_rows (ids : List String) (cue : String) (now : Int)
    (rows : List Row) :
    transformedMessages ids cue now rows =
      (retainedRows rows).map (fun p => buildMessage ids cue now p.1 p.2) ∧
    (transformedMessages ids cue now rows).length =
      (rows.filter (fun r => !jsFalsy r.message)).length ∧
    (transformedMessages ids cue now rows).length ≤
      (rows.filter (fun r => !jsFalsy r.message)).length := by
  have h1 : transformedMessages ids cue now rows =
      (retainedRows rows).map (fun p => buildMessage ids cue now p.1 p.2) :=
    transformedMessagesAux_eq ids cue now rows 0
  refine ⟨h1, ?_, ?_⟩
  · rw [h1, List.length_map, retainedRows]
    exact length_filter_enumFrom (fun r => !jsFalsy r.message) rows 0
  · rw [h1, List.length_map, retainedRows]
    exact le_of_eq (length_filter_enumFrom (fun r => !jsFalsy r.message) rows 0)

/-- C10: the computed sender is independent of the row's email cell and of
the configured current-user identity (and of the instant and the index):
two rows that agree on the author cell, classified under the same
identifier list, get the same sender whatever their emails and whatever
`currentUserEmail` is — the `isCurrentUser` computation never influences
the result. -/
theorem sender_ignores_email_and_identity (ids : List String)
    (cue₁ cue₂ : String) (now₁ now₂ : Int) (i₁ i₂ : Nat) (r₁ r₂ : Row)
    (hmsg : jsFalsy r₁.message = false) (hmsg' : jsFalsy r₂.message = false)
    (hauthor : r₁.author = r₂.author) :
    (transformRow ids cue₁ now₁ i₁ r₁).map ChatMessage.sender =
      (transformRow ids cue₂ now₂ i₂ r₂).map ChatMessage.sender := by
  rw [transformRow, transformRow, if_neg (by simp [hmsg]), if_neg (by simp [hmsg'])]
  show some (buildMessage ids cue₁ now₁ i₁ r₁).sender = some (buildMessage ids cue₂ now₂ i₂ r₂).sender
  rw [buildMessage_sender, buildMessage_sender, hauthor]

/-- Adding 25 hours always moves to a strictly later local calendar
date (a day is 86400000 ms, so 90000000 ms spans at least one local
midnight). -/
theorem dayOf_add_25h (tz T : Int) : dayOf tz T < dayOf tz (T + 90000000) := by
  unfold dayOf msPerDay
  have h2 : (T + tz) / 86400000 ≤ (T + tz + 3600000) / 86400000 :=
    Int.ediv_le_ediv (by norm_num) (by linarith)
  have h3 : (T + tz + 3600000 + 1 * 86400000) / 86400000
      = (T + tz + 3600000) / 86400000 + 1 :=
    Int.add_mul_ediv_right _ _ (by norm_num)
  have h4 : T + 90000000 + tz = T + tz + 3600000 + 1 * 86400000 := by ring
  rw [h4, h3]
  omega

/-- C3: the first rendered message always starts a day group; a later
message at position `i + 1` starts one exactly when its local calendar
date differs from that of the message at position `i` (grouping is purely
adjacent); and the sequence with timestamps `[T, T, T + 25h]` produces
exactly the boundary pattern `[true, false, true]` — two boundaries, the
second at the third message. -/
theorem day_grouping_adjacent (tz : Int) (messages : List ChatMessage) (i : Nat) :
    (dayStampFlags tz messages).length = messages.length ∧
    (dayStampFlags tz messages)[0]? = messages[0]?.map (fun _ => true) ∧
    (dayStampFlags tz messages)[i + 1]? =
      messages[i + 1]?.bind (fun c =>
        messages[i]?.map (fun p => !isSameDay tz c.timestamp p.timestamp)) ∧
    (∀ (a b c : ChatMessage) (T : Int),
      dayStampFlags tz [{ a with timestamp := T }, { b with timestamp := T },
        { c with timestamp := T + 90000000 }] = [true, false, true]) := by
  refine ⟨?_, ?_, ?_, ?_⟩
  · simp [dayStampFlags, List.enum_length]
  · rw [dayStampFlags, List.getElem?_map, List.getElem?_enum]
    cases h0 : messages[0]? with
    | none => rfl
    | some c => rfl
  · rw [dayStampFlags, List.getElem?_map, List.getElem?_enum]
    cases h : messages[i + 1]? with
    | none => rfl
    | some c =>
      have hlt : i + 1 < messages.length := (List.getElem?_eq_some_iff.mp h).1
      have hi : messages[i]? = some messages[i] :=
        List.getElem?_eq_getElem (by omega)
      simp only [Option.map_some', Option.some_bind, hi, shouldShowDayStamp]
      have : i + 1 - 1 = i := by omega
      simp [this, hi]
  · intro a b c T
    have hne : dayOf tz (T + 90000000) ≠ dayOf tz T := by
      have := dayOf_add_25h tz T
      omega
    simp [dayStampFlags, List.enum, List.enumFrom, shouldShowDayStamp, isSameDay,
      beq_eq_false_iff_ne, hne]

/-- The `shouldAnimate` flag at a position, as a function of the message
there. -/
theorem animateFlags_at (now : Int) (messages : List ChatMessage) (i : Nat) :
    (animateFlags now messages)[i]? = messages[i]?.map (fun m =>
      (m.sender == Sender.assistant) && (i == messages.length - 1) &&
        isMessageNew now m.timestamp) := by
  rw [animateFlags, List.getElem?_map, List.getElem?_enum]
  cases messages[i]? <;> rfl

/-- C4 counterexample: `futureMsg` (timestamp 100000) is 100 seconds in
the future of the current instant 0 — its distance from the current
instant exceeds the 30-second window — yet, as last assistant message, its
`shouldAnimate` flag is `true`. -/
theorem animate_window_counterexample :
    animateFlags 0 [futureMsg] = [true] ∧
    MESSAGE_AGE_THRESHOLD < futureMsg.timestamp - 0 :=
  ⟨by decide, by decide⟩

/-- C4 (amended): a message qualifies for incremental reveal iff it has
assistant sender, is the last message, and its age `now - timestamp` is
strictly below 30000 ms — a one-sided bound, so arbitrarily future-dated
timestamps also qualify; every message whose flag is false starts fully
revealed with no typing state. -/
theorem animate_eligibility_amended (now : Int) (messages : List ChatMessage)
    (i : Nat) (m : ChatMessage) (h : messages[i]? = some m) :
    ((animateFlags now messages)[i]? = some true ↔
      (m.sender = Sender.assistant ∧ i + 1 = messages.length ∧
        now - m.timestamp < MESSAGE_AGE_THRESHOLD)) ∧
    initBubbleState false m.content =
      { displayedText := m.content, currentIndex := m.content.length,
        isTyping := false } := by
  constructor
  · rw [animateFlags_at, h, Option.map_some']
    have hlt : i < messages.length := (List.getElem?_eq_some_iff.mp h).1
    rw [Option.some.injEq]
    simp only [Bool.and_eq_true, beq_iff_eq, isMessageNew, decide_eq_true_eq]
    constructor
    · rintro ⟨⟨hs, hidx⟩, hnew⟩
      exact ⟨hs, by omega, hnew⟩
    · rintro ⟨hs, hlen, hnew⟩
      exact ⟨⟨hs, by omega⟩, hnew⟩
  · rfl

/-- Witness for C4's amended theorem at the concrete one-message list
`[futureMsg]`. -/
theorem animate_eligibility_amended_witness :
    ([futureMsg] : List ChatMessage)[0]? = some futureMsg ∧
    (((animateFlags 0 [futureMsg])[0]? = some true ↔
      (futureMsg.sender = Sender.assistant ∧
        0 + 1 = ([futureMsg] : List ChatMessage).length ∧
        0 - futureMsg.timestamp < MESSAGE_AGE_THRESHOLD)) ∧
    initBubbleState false futureMsg.content =
      { displayedText := futureMsg.content,
        currentIndex := futureMsg.content.length, isTyping := false }) :=
  ⟨by decide, animate_eligibility_amended 0 [futureMsg] 0 futureMsg (by decide)⟩

/-! Playback-engine lemmas. -/

/-- Membership through sorted insertion. -/
theorem mem_insertSorted (x y : Int) : ∀ l : List Int,
    (y ∈ insertSorted x l ↔ y = x ∨ y ∈ l) := by
  intro l
  induction l with
  | nil => simp [insertSorted]
  | cons z zs ih =>
    by_cases h : x ≤ z
    · simp [insertSorted, h]
    · simp [insertSorted, h, ih]
      tauto

/-- Sorting preserves membership. -/
theorem mem_sortInts (y : Int) : ∀ l : List Int, (y ∈ sortInts l ↔ y ∈ l) := by
  intro l
  induction l with
  | nil => simp [sortInts]
  | cons x xs ih => simp [sortInts, mem_insertSorted, ih]

/-- The artificial chunk is at least one character long. -/
theorem one_le_artificialChunk (rnd : RandDraws) (h : ValidDraws rnd) :
    1 ≤ artificialChunk rnd := by
  obtain ⟨_, _, ⟨hb0, _⟩, _, ⟨hs0, _⟩, ⟨hl0, _⟩⟩ := h
  simp only [artificialChunk]
  split_ifs
  · have : (0 : Int) ≤ ⌊rnd.smallRoll * 2⌋ :=
      Int.floor_nonneg.mpr (mul_nonneg hs0 (by norm_num))
    omega
  · have : (0 : Int) ≤ ⌊rnd.largeRoll * 11⌋ :=
      Int.floor_nonneg.mpr (mul_nonneg hl0 (by norm_num))
    omega
  · have : (0 : Int) ≤ ⌊rnd.baseRoll * 8⌋ :=
      Int.floor_nonneg.mpr (mul_nonneg hb0 (by norm_num))
    omega

/-- Every chunk size the chunker can produce is at least 1. -/
theorem one_le_getChunkSize (rnd : RandDraws) (remainingText : List Char)
    (h : ValidDraws rnd) : 1 ≤ getChunkSize rnd remainingText := by
  simp only [getChunkSize]
  rcases hsort : sortInts ([indexOfChar remainingText ' ',
      searchIndex isPunctChar remainingText,
      indexOfChar remainingText '\n'].filter (fun point => decide (0 < point))) with
    _ | ⟨nearestBreak, rest⟩
  · exact one_le_artificialChunk rnd h
  · have hmem : nearestBreak ∈ sortInts ([indexOfChar remainingText ' ',
        searchIndex isPunctChar remainingText,
        indexOfChar remainingText '\n'].filter (fun point => decide (0 < point))) := by
      rw [hsort]; exact List.mem_cons_self _ _
    have hnb : 0 < nearestBreak := by
      have hm2 := (mem_sortInts nearestBreak _).mp hmem
      exact of_decide_eq_true (List.mem_filter.mp hm2).2
    dsimp only
    split_ifs with h1 h2 h3
    · omega
    · rw [Int.le_floor]
      obtain ⟨_, ⟨hf0, _⟩, _⟩ := h
      have h5 : (5 : Int) < nearestBreak := by
        have := (Bool.and_eq_true _ _).mp h3
        exact of_decide_eq_true this.2
      have hnbq : (6 : ℚ) ≤ (nearestBreak : ℚ) := by
        exact_mod_cast (by omega : (6 : Int) ≤ nearestBreak)
      push_cast
      nlinarith [hf0, hnbq]
    · omega
    · exact one_le_artificialChunk rnd h

/-- The committed chunk of an unfinished reveal is between 1 and the
unrevealed remainder. -/
theorem commitLength_bounds (rnd : RandDraws) (content : List Char) (i : Nat)
    (h : ValidDraws rnd) (hi : i < content.length) :
    1 ≤ commitLength rnd content i ∧
      commitLength rnd content i ≤ content.length - i := by
  unfold commitLength
  have h1 : 1 ≤ getChunkSize rnd (content.drop i) :=
    one_le_getChunkSize rnd (content.drop i) h
  have hlen : (content.drop i).length = content.length - i := List.length_drop i content
  rw [hlen]
  have hrem : (1 : Int) ≤ ((content.length - i : Nat) : Int) := by
    have : 1 ≤ content.length - i := by omega
    exact_mod_cast this
  have hminl : (1 : Int) ≤ min (getChunkSize rnd (content.drop i))
      ((content.length - i : Nat) : Int) := le_min h1 hrem
  have hminr : min (getChunkSize rnd (content.drop i))
      ((content.length - i : Nat) : Int) ≤ ((content.length - i : Nat) : Int) :=
    min_le_right _ _
  omega

/-- One unfinished reveal step makes strict progress and never passes the
end of the content. -/
theorem revealStep_bounds (rnd : RandDraws) (content : List Char) (i : Nat)
    (h : ValidDraws rnd) (hi : i < content.length) :
    i < revealStep rnd content i ∧ revealStep rnd content i ≤ content.length := by
  unfold revealStep
  rw [if_neg (by omega)]
  have := commitLength_bounds rnd content i h hi
  omega

/-- The revealed length never decreases. -/
theorem revealStep_mono (rnd : RandDraws) (content : List Char) (i : Nat) :
    i ≤ revealStep rnd content i := by
  unfold revealStep
  split_ifs <;> omega

/-- Enough valid steps drive the revealed length to the full content
length. -/
theorem revealRun_reaches (content : List Char) :
    ∀ (rnds : List RandDraws) (i : Nat), (∀ r ∈ rnds, ValidDraws r) →
      i ≤ content.length → content.length - i ≤ rnds.length →
      revealRun content rnds i = content.length := by
  intro rnds
  induction rnds with
  | nil =>
    intro i _ hle hcnt
    simp only [revealRun]
    simp only [List.length_nil] at hcnt
    omega
  | cons r rest ih =>
    intro i hv hle hcnt
    rw [revealRun]
    by_cases hi : i < content.length
    · have hb := revealStep_bounds r content i (hv r (List.mem_cons_self _ _)) hi
      refine ih (revealStep r content i)
        (fun r' hr' => hv r' (List.mem_cons_of_mem _ hr')) (by omega) ?_
      simp only [List.length_cons] at hcnt
      omega
    · have hstep : revealStep r content i = i := by
        unfold revealStep
        rw [if_pos (by omega)]
      rw [hstep]
      refine ih i (fun r' hr' => hv r' (List.mem_cons_of_mem _ hr')) hle ?_
      simp only [List.length_cons] at hcnt
      omega

/-- C5: each unfinished reveal step commits a chunk of length between 1
and the unrevealed remainder (the chunk size is clamped to the remainder),
so the revealed length strictly grows while unfinished, never decreases,
never exceeds the content length, and a run with at least
`content.length - i` validly-drawn steps reaches exactly the content
length. -/
theorem reveal_progress_terminates (content : List Char) (rnds : List RandDraws)
    (i : Nat) (hv : ∀ r ∈ rnds, ValidDraws r) (hi : i ≤ content.length)
    (hsteps : content.length - i ≤ rnds.length) :
    (∀ (r : RandDraws) (j : Nat), ValidDraws r → j < content.length →
      1 ≤ commitLength r content j ∧
      commitLength r content j ≤ content.length - j ∧
      j < revealStep r content j ∧
      revealStep r content j ≤ content.length) ∧
    (∀ (r : RandDraws) (j : Nat), j ≤ revealStep r content j) ∧
    revealRun content rnds i = content.length := by
  refine ⟨?_, ?_, revealRun_reaches content rnds i hv hi hsteps⟩
  · intro r j hr hj
    have h1 := commitLength_bounds r content j hr hj
    have h2 := revealStep_bounds r content j hr hj
    exact ⟨h1.1, h1.2, h2.1, h2.2⟩
  · intro r j
    exact revealStep_mono r content j

/-- Witness for C5 on the two-character content `"hi"` with two bundles of
zero draws. -/
theorem reveal_progress_terminates_witness :
    (∀ r ∈ [zeroDraws, zeroDraws], ValidDraws r) ∧
    (0 ≤ "hi".data.length ∧ "hi".data.length - 0 ≤ 2) ∧
    ((∀ (r : RandDraws) (j : Nat), ValidDraws r → j < "hi".data.length →
      1 ≤ commitLength r "hi".data j ∧
      commitLength r "hi".data j ≤ "hi".data.length - j ∧
      j < revealStep r "hi".data j ∧
      revealStep r "hi".data j ≤ "hi".data.length) ∧
    (∀ (r : RandDraws) (j : Nat), j ≤ revealStep r "hi".data j) ∧
    revealRun "hi".data [zeroDraws, zeroDraws] 0 = "hi".data.length) :=
  ⟨by decide, ⟨by decide, by decide⟩,
    reveal_progress_terminates "hi".data [zeroDraws, zeroDraws] 0
      (by decide) (by decide) (by decide)⟩

/-! Idempotence of the trim model (the submit handler trims, and the send
handler re-trims what it receives). -/

/-- Dropping a prefix by `p` twice is dropping it once. -/
theorem dropWhile_dropWhile (p : Char → Bool) (l : List Char) :
    (l.dropWhile p).dropWhile p = l.dropWhile p := by
  induction l with
  | nil => rfl
  | cons x xs ih =>
    by_cases h : p x = true
    · simp [List.dropWhile_cons, h, ih]
    · simp [List.dropWhile_cons, h]

/-- If `dropWhile p` keeps a cons intact, its head fails `p`. -/
theorem head_not_of_dropWhile_cons_eq (p : Char → Bool) (x : Char) (xs : List Char)
    (h : List.dropWhile p (x :: xs) = x :: xs) : p x = false := by
  by_contra hc
  rw [Bool.not_eq_false] at hc
  rw [List.dropWhile_cons, if_pos hc] at h
  have hlen := congrArg List.length h
  have hle : (xs.dropWhile p).length ≤ xs.length := (List.dropWhile_suffix p).length_le
  simp only [List.length_cons] at hlen
  omega

/-- Trimming both ends is idempotent. -/
theorem trimData_idem (l : List Char) : trimData (trimData l) = trimData l := by
  unfold trimData
  set m := l.dropWhile wsChar with hm
  set d := m.reverse.dropWhile wsChar with hd
  have hmL : m.dropWhile wsChar = m := by rw [hm]; exact dropWhile_dropWhile wsChar l
  have h1 : d.reverse.dropWhile wsChar = d.reverse := by
    rcases he : d.reverse with _ | ⟨x, xs⟩
    · rfl
    · have hsuf : d <:+ m.reverse := by rw [hd]; exact List.dropWhile_suffix wsChar
      obtain ⟨t, hts⟩ := hsuf
      have hm2 : m = d.reverse ++ t.reverse := by
        have h3 := congrArg List.reverse hts
        rw [List.reverse_append, List.reverse_reverse] at h3
        exact h3.symm
      rw [he] at hm2
      have hpx : wsChar x = false := by
        apply head_not_of_dropWhile_cons_eq wsChar x (xs ++ t.reverse)
        have hxm : m = x :: (xs ++ t.reverse) := by simpa using hm2
        rw [← hxm]
        exact hmL
      rw [List.dropWhile_cons, if_neg (by simp [hpx])]
  rw [h1, List.reverse_reverse]
  have h2 : d.dropWhile wsChar = d := by rw [hd]; exact dropWhile_dropWhile wsChar m.reverse
  rw [h2]

/-- JavaScript `trim` is idempotent. -/
theorem jsTrim_idem (s : String) : jsTrim (jsTrim s) = jsTrim s :=
  congrArg String.mk (trimData_idem s.data)

/-- C6 counterexample: with the trigger handle bound but the prompt
control (write handle) unbound, `send("hi")` still invokes the action
trigger — the call is not a no-op, contradicting the claim that a send
without a configured write handle performs no trigger invocation. -/
theorem send_trigger_without_write_handle :
    (handleSubmit cfgNoControl FailMode.noFail 0 "hi" false []).triggerInvoked = true ∧
    (cfgNoControl.hasPromptControl && cfgNoControl.hasSetPromptValue) = false :=
  ⟨by decide, by decide⟩

/-- C6 (amended): a send is a no-op (no write, no trigger invocation,
messages untouched) when the trimmed text is empty, when a round trip is
in flight, or when the trigger handle is unbound; conversely, any write or
trigger invocation requires non-empty trimmed text, no round trip in
flight and a bound trigger handle — but only the write step (not the whole
call) additionally requires the write handle: a write implies the write
handle is configured, while the trigger can fire without it. -/
theorem send_noop_guards_amended (cfg : SendConfig) (fail : FailMode) (now : Int)
    (inputValue : String) (isLoading : Bool) (messages : List ChatMessage) :
    ((jsTrim inputValue).data.isEmpty = true →
      handleSubmit cfg fail now inputValue isLoading messages =
        { writes := [], triggerInvoked := false, messages := messages,
          isLoading := isLoading }) ∧
    (isLoading = true →
      handleSubmit cfg fail now inputValue isLoading messages =
        { writes := [], triggerInvoked := false, messages := messages,
          isLoading := isLoading }) ∧
    (cfg.hasTrigger = false →
      (handleSubmit cfg fail now inputValue isLoading messages).writes = [] ∧
      (handleSubmit cfg fail now inputValue isLoading messages).triggerInvoked = false ∧
      (handleSubmit cfg fail now inputValue isLoading messages).messages = messages) ∧
    (((handleSubmit cfg fail now inputValue isLoading messages).writes ≠ [] ∨
        (handleSubmit cfg fail now inputValue isLoading messages).triggerInvoked = true) →
      (jsTrim inputValue).data.isEmpty = false ∧ isLoading = false ∧
        cfg.hasTrigger = true) ∧
    ((handleSubmit cfg fail now inputValue isLoading messages).writes ≠ [] →
      cfg.hasPromptControl = true ∧ cfg.hasSetPromptValue = true) := by
  have hidem := jsTrim_idem inputValue
  unfold handleSubmit handleSendMessage
  rw [hidem]
  cases he : (jsTrim inputValue).data.isEmpty <;>
    cases isLoading <;>
      cases hs : shouldShowLoading messages <;>
        cases htr : cfg.hasTrigger <;>
          cases hpc : cfg.hasPromptControl <;>
            cases hsv : cfg.hasSetPromptValue <;>
              cases fail <;>
                simp_all

/-- Witness for C6's amended theorem: blank input is a no-op even with
everything configured. -/
theorem send_noop_guards_amended_witness :
    (jsTrim "   ").data.isEmpty = true ∧
    handleSubmit cfgFull FailMode.noFail 0 "   " false [] =
      { writes := [], triggerInvoked := false, messages := [],
        isLoading := false } :=
  ⟨by decide,
    (send_noop_guards_amended cfgFull FailMode.noFail 0 "   " false []).1 (by decide)⟩

/-- C7 counterexample: an accepted send whose WRITE step fails appends the
error message and returns to idle, but the outbound variable keeps its
prior value `""`, not the sent text — the claim's "left holding the sent
text" fails for write failures. -/
theorem send_write_failure_counterexample :
    (handleSubmit cfgFull FailMode.writeFails 0 "test" false []).messages =
      [errorMessage 0] ∧
    (handleSubmit cfgFull FailMode.writeFails 0 "test" false []).isLoading = false ∧
    finalVar "" (handleSubmit cfgFull FailMode.writeFails 0 "test" false []) = "" ∧
    ("" : String) ≠ jsTrim "test" :=
  ⟨by decide, by decide, by decide, by decide⟩

/-- C7 (amended): on any failing accepted send (write handle and trigger
configured, trimmed text non-empty, idle, not waiting) exactly one
synthesized assistant error message, with id `error-` followed by the
current instant, is appended, the coordinator returns to not-busy, and the clear
step is skipped: after a trigger failure the outbound variable is left
holding the sent (trimmed) text, while after a write failure it keeps its
prior value. -/
theorem send_failure_outcome_amended (cfg : SendConfig) (fail : FailMode)
    (priorValue : String) (now : Int) (inputValue : String)
    (messages : List ChatMessage)
    (hin : (jsTrim inputValue).data.isEmpty = false)
    (hwait : shouldShowLoading messages = false)
    (htr : cfg.hasTrigger = true)
    (hpc : cfg.hasPromptControl = true) (hsv : cfg.hasSetPromptValue = true)
    (hfail : fail ≠ FailMode.noFail) :
    (handleSubmit cfg fail now inputValue false messages).messages =
        messages ++ [errorMessage now] ∧
    (handleSubmit cfg fail now inputValue false messages).isLoading = false ∧
    (fail = FailMode.triggerFails →
      finalVar priorValue (handleSubmit cfg fail now inputValue false messages) =
        jsTrim inputValue) ∧
    (fail = FailMode.writeFails →
      finalVar priorValue (handleSubmit cfg fail now inputValue false messages) =
        priorValue) := by
  have hidem := jsTrim_idem inputValue
  unfold handleSubmit handleSendMessage
  rw [hidem]
  cases fail with
  | noFail => exact absurd rfl hfail
  | writeFails => simp [hin, hwait, htr, hpc, hsv, finalVar]
  | triggerFails => simp [hin, hwait, htr, hpc, hsv, finalVar]

/-- Witness for C7's amended theorem at a concrete trigger failure. -/
theorem send_failure_outcome_amended_witness :
    ((jsTrim "test").data.isEmpty = false ∧
      shouldShowLoading ([] : List ChatMessage) = false ∧
      cfgFull.hasTrigger = true ∧ cfgFull.hasPromptControl = true ∧
      cfgFull.hasSetPromptValue = true ∧
      FailMode.triggerFails ≠ FailMode.noFail) ∧
    ((handleSubmit cfgFull FailMode.triggerFails 0 "test" false []).messages =
        [] ++ [errorMessage 0] ∧
      (handleSubmit cfgFull FailMode.triggerFails 0 "test" false []).isLoading = false ∧
      (FailMode.triggerFails = FailMode.triggerFails →
        finalVar "" (handleSubmit cfgFull FailMode.triggerFails 0 "test" false []) =
          jsTrim "test") ∧
      (FailMode.triggerFails = FailMode.writeFails →
        finalVar "" (handleSubmit cfgFull FailMode.triggerFails 0 "test" false []) =
          "")) :=
  ⟨⟨by decide, by decide, by decide, by decide, by decide, by decide⟩,
    send_failure_outcome_amended cfgFull FailMode.triggerFails "" 0 "test" []
      (by decide) (by decide) (by decide) (by decide) (by decide) (by decide)⟩

/-- C8 counterexample: the synthesized error message appended by a failed
send is NOT rendered pre-revealed: as last assistant message timestamped
at the current instant it passes the eligibility test, so its
`shouldAnimate` flag is `true`. -/
theorem error_message_animates_counterexample :
    (handleSendMessage cfgFull FailMode.triggerFails false 42 "test" []).messages =
      [errorMessage 42] ∧
    animateFlags 42 [errorMessage 42] = [true] :=
  ⟨by decide, by decide⟩

/-- C8 (amended): the synthesized error message is subject to the same
playback-eligibility test as every other message, and satisfies it:
appended last, assistant sender, timestamped at the current instant, its
`shouldAnimate` flag is `true` — it is not exempt from the typewriter
animation. -/
theorem error_message_not_exempt (cfg : SendConfig) (now : Int)
    (message : String) (messages : List ChatMessage) (isLoadingBefore : Bool)
    (hin : (jsTrim message).data.isEmpty = false) (htr : cfg.hasTrigger = true) :
    (animateFlags now
      ((handleSendMessage cfg FailMode.triggerFails isLoadingBefore now message
          messages).messages))[messages.length]? = some true := by
  have hmsgs : (handleSendMessage cfg FailMode.triggerFails isLoadingBefore
      now message messages).messages = messages ++ [errorMessage now] := by
    unfold handleSendMessage
    rw [if_neg (by rw [hin, htr]; simp)]
  rw [hmsgs, animateFlags_at, List.getElem?_concat_length, Option.map_some']
  simp only [errorMessage, isMessageNew, MESSAGE_AGE_THRESHOLD, List.length_append,
    List.length_cons, List.length_nil, Option.some.injEq, Nat.add_sub_cancel,
    beq_self_eq_true, Bool.and_eq_true, decide_eq_true_eq, Bool.true_and, true_and]
  omega

/-- Witness for C8's amended theorem at a concrete failed send. -/
theorem error_message_not_exempt_witness :
    (jsTrim "test").data.isEmpty = false ∧ cfgFull.hasTrigger = true ∧
    (animateFlags 42
      ((handleSendMessage cfgFull FailMode.triggerFails false 42 "test"
          ([] : List ChatMessage)).messages))[([] : List ChatMessage).length]? =
      some true :=
  ⟨by decide, by decide,
    error_message_not_exempt cfgFull 42 "test" [] false (by decide) (by decide)⟩

/-! Injectivity of the synthesized `msg-` ids. -/

/-- The accumulator of `natDecAux` is just appended. -/
theorem natDecAux_append (n : Nat) : ∀ acc : List Char,
    natDecAux n acc = natDecAux n [] ++ acc := by
  induction n using Nat.strong_induction_on with
  | _ n ih =>
    rcases n with _ | m
    · intro acc; simp [natDecAux]
    · intro acc
      simp only [natDecAux]
      rw [ih ((m + 1) / 10) (Nat.div_lt_self (Nat.succ_pos m) (by decide))
            (digitChar ((m + 1) % 10) :: acc),
          ih ((m + 1) / 10) (Nat.div_lt_self (Nat.succ_pos m) (by decide))
            [digitChar ((m + 1) % 10)]]
      simp

/-- Code of a decimal digit. -/
theorem digitChar_toNat (n : Nat) (h : n < 10) : (digitChar n).toNat = 48 + n := by
  interval_cases n <;> decide

/-- `decVal` inverts the accumulating rendering on positive numbers. -/
theorem decVal_natDecAux (n : Nat) (h : 0 < n) :
    decVal (natDecAux n []) = n := by
  induction n using Nat.strong_induction_on with
  | _ n ih =>
    rcases n with _ | m
    · cases h
    · simp only [natDecAux]
      rw [natDecAux_append]
      unfold decVal
      rw [List.foldl_append]
      simp only [List.foldl_cons, List.foldl_nil]
      rw [digitChar_toNat ((m + 1) % 10) (Nat.mod_lt _ (by decide))]
      by_cases hq : (m + 1) / 10 = 0
      · rw [hq]
        simp only [natDecAux, List.foldl_nil]
        omega
      · have hlt : (m + 1) / 10 < m + 1 := Nat.div_lt_self (Nat.succ_pos m) (by decide)
        have hrec := ih ((m + 1) / 10) hlt (Nat.pos_of_ne_zero hq)
        unfold decVal at hrec
        rw [hrec]
        omega

/-- `decVal` inverts the decimal rendering. -/
theorem decVal_natDec (n : Nat) : decVal (natDec n) = n := by
  rcases Nat.eq_zero_or_pos n with h | h
  · subst h; decide
  · unfold natDec
    rw [if_neg (by omega)]
    exact decVal_natDecAux n h

/-- Decimal renderings of distinct numbers differ. -/
theorem natDec_injective {a b : Nat} (h : natDec a = natDec b) : a = b := by
  have hv := congrArg decVal h
  rwa [decVal_natDec, decVal_natDec] at hv

/-- Synthesized `msg-` ids of distinct indices differ. -/
theorem msgId_injective {a b : Nat} (h : msgId a = msgId b) : a = b := by
  unfold msgId natDecStr at h
  have hd := congrArg String.data h
  rw [String.data_append, String.data_append] at hd
  exact natDec_injective (List.append_cancel_left hd)

/-- Indices listed by `enumFrom` are at least the start index. -/
theorem fst_le_of_mem_enumFrom (q : Nat × Row) : ∀ (rows : List Row) (k : Nat),
    q ∈ List.enumFrom k rows → k ≤ q.1 := by
  intro rows
  induction rows with
  | nil => intro k h; cases h
  | cons r rest ih =>
    intro k h
    rw [List.enumFrom] at h
    rcases List.mem_cons.mp h with h | h
    · rw [h]
    · exact Nat.le_trans (Nat.le_succ k) (ih (k + 1) h)

/-- The indices listed by `enumFrom` are strictly increasing. -/
theorem pairwise_fst_lt_enumFrom (rows : List Row) : ∀ k : Nat,
    List.Pairwise (fun p q : Nat × Row => p.1 < q.1) (List.enumFrom k rows) := by
  induction rows with
  | nil => intro k; exact List.Pairwise.nil
  | cons r rest ih =>
    intro k
    rw [List.enumFrom]
    refine List.Pairwise.cons ?_ (ih (k + 1))
    intro q hq
    have hk := fst_le_of_mem_enumFrom q rest (k + 1) hq
    show k < q.1
    omega

/-- C9 counterexample: two rows both providing the id `"x"` produce a
Conversation whose Message ids are `["x", "x"]` — not pairwise
distinct. -/
theorem duplicate_id_counterexample :
    (transformedMessages (assistantIdentifiers "") "" 0 dupIdRows).map ChatMessage.id =
      ["x", "x"] ∧
    ¬ List.Pairwise (fun a b : String => a ≠ b)
      ((transformedMessages (assistantIdentifiers "") "" 0 dupIdRows).map ChatMessage.id) :=
  ⟨by decide, by decide⟩

/-- C9 (amended): each produced id is the truthy provided id field, else
the synthesized `msg-` id of the source row index; the ids are pairwise
distinct provided the retained rows' truthy provided ids are pairwise
distinct and no provided id collides with the synthesized id of a retained
row lacking one (in particular, with no id column the ids are always
distinct). -/
theorem message_ids_distinct_amended (ids : List String) (cue : String) (now : Int)
    (rows : List Row)
    (h1 : List.Pairwise providedIdsOk (retainedRows rows))
    (h2 : ∀ p ∈ retainedRows rows, ∀ q ∈ retainedRows rows, crossIdOk p q) :
    (transformedMessages ids cue now rows).map ChatMessage.id =
      (retainedRows rows).map rowIdOf ∧
    List.Pairwise (fun a b : String => a ≠ b)
      ((transformedMessages ids cue now rows).map ChatMessage.id) := by
  have hrep : transformedMessages ids cue now rows =
      (retainedRows rows).map (fun p => buildMessage ids cue now p.1 p.2) :=
    transformedMessagesAux_eq ids cue now rows 0
  have hmap : (transformedMessages ids cue now rows).map ChatMessage.id =
      (retainedRows rows).map rowIdOf := by
    rw [hrep, List.map_map]
    have hfun : (ChatMessage.id ∘ fun p : Nat × Row => buildMessage ids cue now p.1 p.2) =
        fun p : Nat × Row => rowIdOf p :=
      funext fun p => buildMessage_id ids cue now p.1 p.2
    rw [hfun]
  refine ⟨hmap, ?_⟩
  rw [hmap, List.pairwise_map]
  have hidx : List.Pairwise (fun p q : Nat × Row => p.1 < q.1) (retainedRows rows) :=
    (pairwise_fst_lt_enumFrom rows 0).filter _
  have hcombo := hidx.and h1
  refine List.Pairwise.imp_of_mem ?_ hcombo
  intro p q hp hq hr
  obtain ⟨hlt, hok⟩ := hr
  unfold rowIdOf
  unfold providedIdsOk at hok
  rcases hps : truthyOpt p.2.idField with _ | s <;>
    rcases hqs : truthyOpt q.2.idField with _ | t
  · intro hc
    exact absurd (msgId_injective hc) (by omega)
  · have hx := h2 q hq p hp
    intro hc
    have hc' : msgId p.1 = t := hc
    exact (hx hps) (by rw [hqs, hc'])
  · have hx := h2 p hp q hq
    intro hc
    have hc' : s = msgId q.1 := hc
    exact (hx hqs) (by rw [hps, hc'])
  · rcases hok with hcase | hcase | hcase
    · rw [hps] at hcase; cases hcase
    · rw [hqs] at hcase; cases hcase
    · intro hc
      have hc' : s = t := hc
      exact hcase (by rw [hps, hqs, hc'])

/-- Witness for C9's amended theorem: two retained rows without id fields
get the distinct synthesized ids `msg-0` and `msg-1`. -/
theorem message_ids_distinct_amended_witness :
    List.Pairwise providedIdsOk (retainedRows noIdRows) ∧
    (∀ p ∈ retainedRows noIdRows, ∀ q ∈ retainedRows noIdRows, crossIdOk p q) ∧
    ((transformedMessages (assistantIdentifiers "") "" 0 noIdRows).map ChatMessage.id =
        (retainedRows noIdRows).map rowIdOf ∧
      List.Pairwise (fun a b : String => a ≠ b)
        ((transformedMessages (assistantIdentifiers "") "" 0 noIdRows).map
          ChatMessage.id)) :=
  ⟨by decide, by decide,
    message_ids_distinct_amended (assistantIdentifiers "") "" 0 noIdRows
      (by decide) (by decide)⟩

/-- Witness for C10: `rowEmailA` and `rowEmailB` differ in their email
cell, and the two sends are classified under different current-user
identities, yet the senders agree. -/
theorem sender_ignores_email_and_identity_witness :
    jsFalsy rowEmailA.message = false ∧ jsFalsy rowEmailB.message = false ∧
    rowEmailA.author = rowEmailB.author ∧
    (transformRow (assistantIdentifiers "") "alice@x.com" 0 0 rowEmailA).map ChatMessage.sender =
      (transformRow (assistantIdentifiers "") "someone@else.org" 7 3 rowEmailB).map ChatMessage.sender :=
  ⟨by decide, by decide, by decide,
    sender_ignores_email_and_identity (assistantIdentifiers "") "alice@x.com" "someone@else.org"
      0 7 0 3 rowEmailA rowEmailB (by decide) (by decide) (by decide)⟩

end ChatPlugin
